import Mathlib

/-!
Shallow embedding of `scripts/csv_to_json.py`, a batch converter that turns
semicolon-delimited tabular files into compact columnar JSON documents.

Modelling conventions:
* Python `None` / JSON `null` is the constructor `Value.null`.
* Python floats are modelled by exact rationals (`ℚ`).  Finite decimal and
  exponent literals are parsed to their exact value; the IEEE-754 corner
  cases (`inf`, `nan`, overflow/underflow of huge exponents, underscore
  separators, non-ASCII digits) are outside the model, and no theorem or
  concrete input below exercises them.
* `str.strip()` is modelled by `pyStrip` (ASCII whitespace).
* The `csv.DictReader` parse of a file is modelled by `parseCSV` for the
  plain (quote-free) inputs the script consumes: lines split on newlines,
  fields split on the `;` delimiter, blank lines skipped.
* Raising an uncaught exception is modelled by the explicit outcome
  constructors below instead of by Python's control flow.
-/

/-- A coerced cell value: the scalars that can appear in the output JSON
arrays (`None`, `int`, 2-decimal-rounded `float`, or `str` in the Python
source). -/
inductive Value where
  | null : Value
  | int : ℤ → Value
  | float : ℚ → Value
  | str : String → Value
deriving DecidableEq

/-- ASCII whitespace recognised by Python `str.strip()`. -/
def isSpace (c : Char) : Bool :=
  c == ' ' || c == '\t' || c == '\n' || c == '\r' || c == '\x0b' || c == '\x0c'

/-- Model of Python `str.strip()`: remove leading and trailing whitespace. -/
def pyStrip (s : String) : String :=
  String.mk (((s.toList.dropWhile isSpace).reverse.dropWhile isSpace).reverse)

/-- Split a character list at every occurrence of `sep`. -/
def splitChars (sep : Char) : List Char → List (List Char)
  | [] => [[]]
  | c :: rest =>
    match splitChars sep rest with
    | [] => if c = sep then [[], [c]] else [[c]]
    | h :: t => if c = sep then [] :: h :: t else (c :: h) :: t

/-- Split a string at every occurrence of the character `sep`. -/
def splitString (sep : Char) (s : String) : List String :=
  (splitChars sep s.toList).map String.mk

/-- Strip one optional leading sign from a numeric literal; `true` means the
literal is negated. -/
def splitSign (l : List Char) : Bool × List Char :=
  match l with
  | [] => (false, [])
  | c :: rest => if c = '-' then (true, rest) else if c = '+' then (false, rest) else (false, l)

/-- Numeric value of a digit string, most significant digit first. -/
def digitsVal (l : List Char) : ℕ :=
  l.foldl (fun acc c => acc * 10 + (c.toNat - '0'.toNat)) 0

/-- Split a character list at the first character satisfying `p`, or `none`
when no character does. -/
def splitOnFirst (p : Char → Prop) [DecidablePred p] : List Char → Option (List Char × List Char)
  | [] => Option.none
  | c :: rest =>
    if p c then Option.some ([], rest)
    else (splitOnFirst p rest).map (fun q => (c :: q.1, q.2))

/-- The mantissa of a Python float literal: `digits`, `digits.digits?`, or
`.digits`, valued exactly in `ℚ`. -/
def parseMantissa (l : List Char) : Option ℚ :=
  match splitOnFirst (fun c => c = '.') l with
  | Option.none =>
    if l ≠ [] ∧ l.all Char.isDigit then Option.some ((digitsVal l : ℕ) : ℚ) else Option.none
  | Option.some (a, b) =>
    if (a ≠ [] ∨ b ≠ []) ∧ a.all Char.isDigit ∧ b.all Char.isDigit then
      Option.some ((digitsVal a : ℕ) + ((digitsVal b : ℕ) : ℚ) / (10 : ℚ) ^ b.length)
    else Option.none

/-- An optionally signed digit string, as used for exponents and by Python
`int(str)`. -/
def parseSignedDigits (l : List Char) : Option ℤ :=
  if (splitSign l).2 ≠ [] ∧ (splitSign l).2.all Char.isDigit then
    Option.some
      (if (splitSign l).1 then -((digitsVal (splitSign l).2 : ℕ) : ℤ)
       else ((digitsVal (splitSign l).2 : ℕ) : ℤ))
  else Option.none

/-- Unsigned part of a Python float literal: mantissa with an optional
`e`/`E` exponent. -/
def pyFloatCore (l : List Char) : Option ℚ :=
  match splitOnFirst (fun c => c = 'e' ∨ c = 'E') l with
  | Option.none => parseMantissa l
  | Option.some (m, e) =>
    match parseMantissa m, parseSignedDigits e with
    | Option.some mv, Option.some ev => Option.some (mv * (10 : ℚ) ^ ev)
    | _, _ => Option.none

/-- Model of Python `float(str)` on finite decimal literals: the exact
rational value, or `none` when the literal is malformed (which the script
observes as a `ValueError`). -/
def pyFloat (s : String) : Option ℚ :=
  (pyFloatCore (splitSign s.toList).2).map
    (fun q => if (splitSign s.toList).1 then -q else q)

/-- Model of Python `int(str)`: an optionally signed digit string, or `none`
for a `ValueError` (in particular exponent notation such as `1e3`). -/
def pyIntStr (s : String) : Option ℤ := parseSignedDigits s.toList

/-- Round to the nearest integer, ties to even, as Python `round` does. -/
def roundHalfEven (q : ℚ) : ℤ :=
  if q - (⌊q⌋ : ℚ) < 1 / 2 then ⌊q⌋
  else if q - (⌊q⌋ : ℚ) > 1 / 2 then ⌊q⌋ + 1
  else if ⌊q⌋ % 2 = 0 then ⌊q⌋ else ⌊q⌋ + 1

/-- Model of Python `round(f, 2)` on the exact-rational float model. -/
def pyRound2 (q : ℚ) : ℚ := (roundHalfEven (q * 100) : ℚ) / 100

/-- Embedding of `parse_value` (`csv_to_json.py` lines 29-40): strip the
cell; empty becomes `None`; otherwise try `float(val)`; a whole-number value
(`f == int(f)`, i.e. denominator 1) with no `.` in the stripped string goes
through `int(val)`, whose own `ValueError` is caught by the same handler and
falls back to the stripped string; any other parsed number is rounded to two
decimals; a float `ValueError` falls back to the stripped string. -/
def parse_value (v : String) : Value :=
  let val := pyStrip v
  if val = "" then Value.null
  else
    match pyFloat val with
    | Option.none => Value.str val
    | Option.some f =>
      if f.den = 1 ∧ '.' ∉ val.toList then
        match pyIntStr val with
        | Option.some n => Value.int n
        | Option.none => Value.str val
      else Value.float (pyRound2 f)

example : parse_value "5" = Value.int 5 := by decide
example : parse_value "  abc " = Value.str "abc" := by decide
example : parse_value " " = Value.null := by decide
example : parse_value "-12" = Value.int (-12) := by decide
example : pyFloat "0" = Option.some 0 := by decide

/-- Cell access `row[col]` through the per-row dict that `csv.DictReader`
builds by zipping the header names with the row's fields (for duplicate
header names the last pair wins, as in a Python dict). -/
def getCell (headers : List String) (row : List String) (col : String) : String :=
  ((((headers.zip row).filter (fun p => decide (p.1 = col))).getLast?).map Prod.snd).getD ""

/-- One iteration of the all-zero scan (`csv_to_json.py` lines 67-76): a cell
keeps `all_zero` alive when it strips to empty or parses to the float value
zero; a parse failure or a nonzero value refutes it. -/
def cellZeroish (s : String) : Bool :=
  if pyStrip s = "" then true
  else
    match pyFloat (pyStrip s) with
    | Option.some f => decide (f = 0)
    | Option.none => false

/-- The per-column all-zero test of `convert` (lines 65-76): the early-exit
loop is equivalent to requiring every cell of the column to be zero-ish. -/
def colAllZero (headers : List String) (rows : List (List String)) (col : String) : Bool :=
  rows.all (fun row => cellZeroish (getCell headers row col))

/-- The drop decision of `convert` (lines 59-78): `date`/`month` always
dropped, `timestamps` always kept, anything else dropped exactly when the
all-zero scan succeeds. -/
def isDropped (headers : List String) (rows : List (List String)) (col : String) : Bool :=
  if col = "date" ∨ col = "month" then true
  else if col = "timestamps" then false
  else colAllZero headers rows col

/-- The set `zero_cols` of lines 58-78, as the sublist of headers that the
loop adds; only membership in it is ever consumed. -/
def zero_cols (headers : List String) (rows : List (List String)) : List String :=
  headers.filter (fun col => isDropped headers rows col)

/-- `keep_cols = [c for c in headers if c not in zero_cols]` (line 81). -/
def keep_cols (headers : List String) (rows : List (List String)) : List String :=
  headers.filter (fun c => decide (c ∉ zero_cols headers rows))

/-- The columnar document built on lines 82-85: each kept column paired with
the coercions of its cells in row order.  The Python dict keeps the
`keep_cols` insertion order, so an ordered association list models it. -/
def columnsOf (headers : List String) (rows : List (List String)) :
    List (String × List Value) :=
  (keep_cols headers rows).map
    (fun c => (c, rows.map (fun row => parse_value (getCell headers row c))))

/-- Observable outcome of one `convert` call: skip on an empty input (no
write), a normal conversion that writes the document, or the write followed
by the uncaught `StopIteration` that `next(iter(columns.values()))` raises
on line 92 when no column was kept. -/
inductive ConvertOutcome where
  | skippedEmpty : ConvertOutcome
  | ok : List (String × List Value) → ConvertOutcome
  | crashedAfterWrite : List (String × List Value) → ConvertOutcome
deriving DecidableEq

/-- Embedding of `convert` (lines 43-93) on the parsed rows. -/
def convert (headers : List String) (rows : List (List String)) : ConvertOutcome :=
  if rows = [] then ConvertOutcome.skippedEmpty
  else if columnsOf headers rows = [] then
    ConvertOutcome.crashedAfterWrite (columnsOf headers rows)
  else ConvertOutcome.ok (columnsOf headers rows)

/-- The document a `convert` call wrote to the output path, if any. -/
def writtenDoc : ConvertOutcome → Option (List (String × List Value))
  | ConvertOutcome.skippedEmpty => Option.none
  | ConvertOutcome.ok d => Option.some d
  | ConvertOutcome.crashedAfterWrite d => Option.some d

/-- Model of the `csv.DictReader` pass over a quote-free file: newline-split
lines (blank ones skipped, matching the reader), the first line the header,
each remaining line split on the `;` delimiter. -/
def parseCSV (content : String) : List String × List (List String) :=
  match (splitString '\n' content).filter (fun l => decide (l ≠ "")) with
  | [] => ([], [])
  | h :: rest => (splitString ';' h, rest.map (splitString ';'))

/-- `convert` on raw file content. -/
def convertFile (content : String) : ConvertOutcome :=
  convert (parseCSV content).1 (parseCSV content).2

example : convertFile "timestamps;a;b\n1;0;2\n2;0;3" =
    ConvertOutcome.ok
      [("timestamps", [Value.int 1, Value.int 2]),
       ("b", [Value.int 2, Value.int 3])] := by decide
example : convertFile "a\n0" = ConvertOutcome.crashedAfterWrite [] := by decide
example : convertFile "a;b" = ConvertOutcome.skippedEmpty := by decide

/-- JSON string escaping as `json.dump` performs it, modelled for the
printable-ASCII characters the inputs contain. -/
def escapeChar (c : Char) : String :=
  if c = '"' then "\\\""
  else if c = '\\' then "\\\\"
  else if c = '\n' then "\\n"
  else if c = '\t' then "\\t"
  else if c = '\r' then "\\r"
  else String.mk [c]

/-- Escape every character of a string. -/
def escapeString (s : String) : String :=
  (s.toList.map escapeChar).foldl (fun a b => a ++ b) ""

/-- Join strings with a separator, as the serializer's comma separator. -/
def joinSep (sep : String) : List String → String
  | [] => ""
  | [x] => x
  | x :: xs => x ++ sep ++ joinSep sep xs

/-- Decimal repr of a float holding an exact two-decimal value, the only
floats the converter produces (via `round(f, 2)`). -/
def floatRepr (q : ℚ) : String :=
  let sgn := if q < 0 then "-" else ""
  let m := (⌊|q| * 100⌋).toNat
  if m % 100 = 0 then sgn ++ toString (m / 100) ++ ".0"
  else if m % 10 = 0 then sgn ++ toString (m / 100) ++ "." ++ toString (m % 100 / 10)
  else
    sgn ++ toString (m / 100) ++ "." ++
      (if m % 100 < 10 then "0" else "") ++ toString (m % 100)

/-- JSON serialization of one scalar, as `json.dump` renders it. -/
def serializeValue : Value → String
  | Value.null => "null"
  | Value.int n => toString n
  | Value.float q => floatRepr q
  | Value.str s => "\"" ++ escapeString s ++ "\""

/-- One `"name":[v,...]` member of the output object. -/
def serializeColumn (p : String × List Value) : String :=
  "\"" ++ escapeString p.1 ++ "\":[" ++ joinSep "," (p.2.map serializeValue) ++ "]"

/-- `json.dump(columns, f, separators=(",", ":"))` (line 88): the compact
serialization of the columnar document, keys in insertion order. -/
def serializeDoc (doc : List (String × List Value)) : String :=
  "\x7b" ++ joinSep "," (doc.map serializeColumn) ++ "\x7d"

/-- The bytes `convert` writes to the output path for a given input file
content, or `none` when it writes nothing. -/
def outputBytes (content : String) : Option String :=
  (writtenDoc (convertFile content)).map serializeDoc

example : outputBytes "timestamps;a;b\n1;0;2\n2;0;3" =
    Option.some "\x7b\"timestamps\":[1,2],\"b\":[2,3]\x7d" := by decide

/-- The hardcoded `FILE_MAP` of `csv_to_json.py` lines 11-26, in insertion
order (Python dicts iterate in insertion order). -/
def FILE_MAP : List (String × String) :=
  [("calculation.csv", "calc_15min_consumption_2024.json"),
   ("calculation (1).csv", "calc_15min_pv_2025.json"),
   ("calculation (2).csv", "calc_15min_partial_2025.json"),
   ("calculation (3).csv", "calc_15min_generator_2025.json"),
   ("calculation (4).csv", "calc_15min_battery_2024.json"),
   ("calculation_per_day.csv", "calc_daily_consumption_2024.json"),
   ("calculation_per_day (1).csv", "calc_daily_simple_2024.json"),
   ("calculation_per_day (2).csv", "calc_daily_pv_2024.json"),
   ("calculation_per_month.csv", "calc_monthly_2024.json"),
   ("input_profiles.csv", "profiles_15min_consumption_2024.json"),
   ("input_profiles (1).csv", "profiles_15min_pv_2025.json"),
   ("input_profiles (2).csv", "profiles_15min_partial_2025.json"),
   ("input_profiles (3).csv", "profiles_15min_extra_2025.json"),
   ("input_profiles (4).csv", "profiles_15min_full_2024.json")]

/-- Console-observable fate of one configured file entry during `main`. -/
inductive FileReport where
  | missing : String → FileReport
  | skipped : String → FileReport
  | converted : String → List (String × List Value) → FileReport
  | crashed : String → List (String × List Value) → FileReport
deriving DecidableEq

/-- The `main` loop (lines 96-104) over a list of configured pairs, reading
input files from `env` (the state of the input directory, file name to
content).  Returns the per-file reports and whether the run reached the
final banner (`false` when an uncaught exception aborted it). -/
def processList : List (String × String) → (String → Option String) → List FileReport × Bool
  | [], _ => ([], true)
  | (c, _) :: rest, env =>
    match env c with
    | Option.none =>
      (FileReport.missing c :: (processList rest env).1, (processList rest env).2)
    | Option.some content =>
      match convertFile content with
      | ConvertOutcome.skippedEmpty =>
        (FileReport.skipped c :: (processList rest env).1, (processList rest env).2)
      | ConvertOutcome.ok doc =>
        (FileReport.converted c doc :: (processList rest env).1, (processList rest env).2)
      | ConvertOutcome.crashedAfterWrite doc => ([FileReport.crashed c doc], false)

/-- The whole run of `main` over the configured `FILE_MAP`. -/
def mainRun (env : String → Option String) : List FileReport × Bool :=
  processList FILE_MAP env

/-- Well-formedness of a parsed input as `csv.DictReader` would hand it to
`convert`: distinct header names (a Python dict collapses duplicates) and no
row shorter than the header (a short row maps trailing columns to `None`,
on which the script would throw before reaching any output). -/
def RowsWF (headers : List String) (rows : List (List String)) : Prop :=
  headers.Nodup ∧ ∀ row ∈ rows, headers.length ≤ row.length

example :
    mainRun (fun n => if n = "calculation.csv" then Option.some "a\n0" else Option.none) =
      ([FileReport.crashed "calculation.csv" []], false) := by decide

/-! Helper lemmas about the embedding. -/

/-- With at least one data row, `convert` always writes the columnar
document (even when it then crashes computing the report). -/
lemma writtenDoc_convert (headers : List String) (rows : List (List String))
    (hr : rows ≠ []) :
    writtenDoc (convert headers rows) = Option.some (columnsOf headers rows) := by
  rw [convert, if_neg hr]
  by_cases h : columnsOf headers rows = [] <;> simp [h, writtenDoc]

/-- Conversely, any document `convert` writes is the columnar document. -/
lemma writtenDoc_eq_some (headers : List String) (rows : List (List String))
    (doc : List (String × List Value))
    (h : writtenDoc (convert headers rows) = Option.some doc) :
    doc = columnsOf headers rows := by
  rw [convert] at h
  by_cases hr : rows = []
  · rw [if_pos hr] at h; exact absurd h (by simp [writtenDoc])
  · rw [if_neg hr] at h
    by_cases hc : columnsOf headers rows = []
    · rw [if_pos hc] at h
      simp [writtenDoc] at h
      exact h.symm
    · rw [if_neg hc] at h
      simp [writtenDoc] at h
      exact h.symm

/-- Membership in the drop set is the per-column drop decision. -/
lemma mem_zero_cols (headers : List String) (rows : List (List String)) (col : String) :
    col ∈ zero_cols headers rows ↔ col ∈ headers ∧ isDropped headers rows col = true := by
  simp [zero_cols, List.mem_filter]

/-- Membership among the kept columns. -/
lemma mem_keep_cols (headers : List String) (rows : List (List String)) (col : String) :
    col ∈ keep_cols headers rows ↔ col ∈ headers ∧ col ∉ zero_cols headers rows := by
  simp [keep_cols, List.mem_filter]

/-- The output document's key list is exactly `keep_cols`. -/
lemma keys_columnsOf (headers : List String) (rows : List (List String)) :
    (columnsOf headers rows).map Prod.fst = keep_cols headers rows := by
  rw [columnsOf, List.map_map]
  exact List.map_id' (keep_cols headers rows)

/-- Each member of the document carries the row-ordered coercions of its
column's cells. -/
lemma mem_columnsOf (headers : List String) (rows : List (List String))
    (c : String) (vs : List Value) (h : (c, vs) ∈ columnsOf headers rows) :
    vs = rows.map (fun row => parse_value (getCell headers row c)) := by
  rw [columnsOf, List.mem_map] at h
  obtain ⟨c', _, heq⟩ := h
  have h1 : c' = c := congrArg Prod.fst heq
  have h2 := congrArg Prod.snd heq
  simp only at h2
  rw [← h2, h1]

/-- On a column that is none of the special names, the drop decision is the
all-zero scan. -/
lemma isDropped_other (headers : List String) (rows : List (List String)) (col : String)
    (hd : col ≠ "date") (hm : col ≠ "month") (ht : col ≠ "timestamps") :
    isDropped headers rows col = colAllZero headers rows col := by
  rw [isDropped, if_neg (by simp [hd, hm]), if_neg ht]

/-- A cell passes the all-zero scan exactly when it strips to empty or
parses to the float value zero. -/
lemma cellZeroish_iff (s : String) :
    cellZeroish s = true ↔ pyStrip s = "" ∨ pyFloat (pyStrip s) = Option.some 0 := by
  rw [cellZeroish]
  by_cases he : pyStrip s = ""
  · simp [he]
  · rw [if_neg he]
    cases hp : pyFloat (pyStrip s) <;> simp [hp, he]

/-- The all-zero scan over a whole column. -/
lemma colAllZero_iff (headers : List String) (rows : List (List String)) (col : String) :
    colAllZero headers rows col = true ↔
      ∀ row ∈ rows, pyStrip (getCell headers row col) = "" ∨
        pyFloat (pyStrip (getCell headers row col)) = Option.some 0 := by
  rw [colAllZero, List.all_eq_true]
  exact forall_congr' (fun row => forall_congr' (fun _ => cellZeroish_iff _))

/-- `splitOnFirst` finds nothing when no character satisfies the predicate. -/
lemma splitOnFirst_eq_none (p : Char → Prop) [DecidablePred p] (l : List Char)
    (h : ∀ c ∈ l, ¬ p c) : splitOnFirst p l = Option.none := by
  induction l with
  | nil => rfl
  | cons c rest ih =>
    rw [splitOnFirst, if_neg (h c (List.mem_cons_self c rest)),
      ih (fun d hd => h d (List.mem_cons_of_mem c hd))]
    rfl

/-- A digit is not a decimal point. -/
lemma allDigits_not_dot (l : List Char) (h : l.all Char.isDigit = true) : '.' ∉ l := by
  intro hmem
  rw [List.all_eq_true] at h
  exact absurd (h '.' hmem) (by decide)

/-- A digit is not an exponent marker. -/
lemma allDigits_not_exp (l : List Char) (h : l.all Char.isDigit = true) :
    ∀ c ∈ l, ¬ (c = 'e' ∨ c = 'E') := by
  intro c hc hx
  rw [List.all_eq_true] at h
  have hd := h c hc
  rcases hx with hx | hx <;> rw [hx] at hd <;> exact absurd hd (by decide)

/-- A nonempty digit string parses as a float with its digit value. -/
lemma pyFloatCore_digits (l : List Char) (h1 : l ≠ []) (h2 : l.all Char.isDigit = true) :
    pyFloatCore l = Option.some ((digitsVal l : ℕ) : ℚ) := by
  rw [pyFloatCore, splitOnFirst_eq_none _ l (allDigits_not_exp l h2)]
  rw [parseMantissa,
    splitOnFirst_eq_none (fun c => c = '.') l
      (fun c hc hd => allDigits_not_dot l h2 (hd ▸ hc))]
  rw [if_pos ⟨h1, h2⟩]

/-- `splitSign` either leaves the list alone or strips one leading sign. -/
lemma splitSign_cases (l : List Char) :
    (splitSign l).2 = l ∨
      ∃ c rest, l = c :: rest ∧ (splitSign l).2 = rest ∧ (c = '+' ∨ c = '-') := by
  cases l with
  | nil => exact Or.inl rfl
  | cons c rest =>
    by_cases hm : c = '-'
    · exact Or.inr ⟨c, rest, rfl, by rw [splitSign, if_pos hm], Or.inr hm⟩
    · by_cases hp : c = '+'
      · exact Or.inr ⟨c, rest, rfl, by rw [splitSign, if_neg hm, if_pos hp], Or.inl hp⟩
      · exact Or.inl (by rw [splitSign, if_neg hm, if_neg hp])

/-- When Python `int(val)` succeeds, `float(val)` succeeds with the same
value, that value is whole, and `val` contains no decimal point; this is the
path on which `parse_value` returns an integer. -/
lemma pyIntStr_parse (s : String) (n : ℤ) (h : pyIntStr s = Option.some n) :
    pyFloat s = Option.some ((n : ℤ) : ℚ) ∧ ((n : ℤ) : ℚ).den = 1 ∧
      '.' ∉ s.toList ∧ s ≠ "" := by
  rw [pyIntStr, parseSignedDigits] at h
  by_cases hc : (splitSign s.toList).2 ≠ [] ∧ (splitSign s.toList).2.all Char.isDigit
  · rw [if_pos hc] at h
    have hn : n = (if (splitSign s.toList).1 then -((digitsVal (splitSign s.toList).2 : ℕ) : ℤ)
        else ((digitsVal (splitSign s.toList).2 : ℕ) : ℤ)) := (Option.some.injEq _ _).mp h |>.symm
    have hfl : pyFloat s = Option.some ((n : ℤ) : ℚ) := by
      rw [pyFloat, pyFloatCore_digits _ hc.1 hc.2]
      rw [Option.map_some']
      rw [hn]
      by_cases hneg : (splitSign s.toList).1 = true
      · rw [if_pos hneg, if_pos hneg]
        push_cast
        ring_nf
      · rw [if_neg hneg, if_neg hneg]
        push_cast
        ring_nf
    refine ⟨hfl, Rat.den_intCast n, ?_, ?_⟩
    · rcases splitSign_cases s.toList with hsp | ⟨c, rest, hl, hsp, hsign⟩
      · exact hsp ▸ allDigits_not_dot _ hc.2
      · rw [hl]
        intro hmem
        rcases List.mem_cons.mp hmem with hdot | hdot
        · rcases hsign with hs1 | hs1 <;> rw [hs1] at hdot <;> exact absurd hdot (by decide)
        · exact allDigits_not_dot _ (hsp ▸ hc.2) hdot
    · intro he
      rw [he] at hc
      exact hc.1 rfl
  · rw [if_neg hc] at h
    exact absurd h (by simp)

/-- A signed digit literal coerces to exactly its integer value. -/
lemma parse_value_int_literal (s : String) (n : ℤ)
    (h : pyIntStr (pyStrip s) = Option.some n) : parse_value s = Value.int n := by
  obtain ⟨hf, hden, hdot, hne⟩ := pyIntStr_parse (pyStrip s) n h
  rw [parse_value]
  simp only [hf, h, if_neg hne]
  rw [if_pos ⟨hden, hdot⟩]

/-! Claim theorems. -/

/-- Input directory holding a single configured file whose one column is
all-zero and therefore dropped. -/
def envAllDropped : String → Option String :=
  fun n => if n = "calculation.csv" then Option.some "a\n0" else Option.none

/-- C1: the claim that the run always terminates normally fails on the code.
A configured input that exists and has a data row but whose every column is
dropped (here a single all-zero column `a`) makes `convert` write the empty
document and then raise `StopIteration` at
`n_rows = len(next(iter(columns.values())))` (line 92), aborting `main`
before the remaining configured entries are processed. -/
theorem C1_run_aborts_on_all_dropped_columns :
    convertFile "a\n0" = ConvertOutcome.crashedAfterWrite [] ∧
    mainRun envAllDropped = ([FileReport.crashed "calculation.csv" []], false) ∧
    (mainRun envAllDropped).1.length < FILE_MAP.length := by decide

/-- C2: a column that is none of `date`/`month`/`timestamps` is in the drop
set exactly when every non-empty cell of it parses as the float value zero,
and a column with a non-numeric non-empty cell or a nonzero-parsing cell is
retained and appears among the output document's keys. -/
theorem C2_zero_drop_iff (headers : List String) (rows : List (List String)) (col : String)
    (_hwf : RowsWF headers rows) (hcol : col ∈ headers) (hr : rows ≠ [])
    (hd : col ≠ "date") (hm : col ≠ "month") (ht : col ≠ "timestamps") :
    (col ∈ zero_cols headers rows ↔
      ∀ row ∈ rows, pyStrip (getCell headers row col) = "" ∨
        pyFloat (pyStrip (getCell headers row col)) = Option.some 0) ∧
    ((∃ row ∈ rows, pyStrip (getCell headers row col) ≠ "" ∧
        pyFloat (pyStrip (getCell headers row col)) ≠ Option.some 0) →
      ∃ doc, writtenDoc (convert headers rows) = Option.some doc ∧
        col ∈ doc.map Prod.fst) := by
  have hiff : col ∈ zero_cols headers rows ↔ colAllZero headers rows col = true := by
    rw [mem_zero_cols, isDropped_other headers rows col hd hm ht]
    exact ⟨fun h => h.2, fun h => ⟨hcol, h⟩⟩
  constructor
  · rw [hiff, colAllZero_iff]
  · rintro ⟨row, hrow, hne, hnz⟩
    refine ⟨columnsOf headers rows, writtenDoc_convert headers rows hr, ?_⟩
    rw [keys_columnsOf, mem_keep_cols]
    refine ⟨hcol, fun hz => ?_⟩
    rw [hiff, colAllZero_iff] at hz
    rcases hz row hrow with h | h
    · exact hne h
    · exact hnz h

/-- C2 witness: on a one-row file `timestamps;a;b` with values `1;0;2` the
characterisation holds for the retained nonzero column `b`. -/
theorem C2_witness :
    ((("b" : String) ∈ zero_cols ["timestamps", "a", "b"] [["1", "0", "2"]]) ↔
      ∀ row ∈ [["1", "0", "2"]],
        pyStrip (getCell ["timestamps", "a", "b"] row "b") = "" ∨
        pyFloat (pyStrip (getCell ["timestamps", "a", "b"] row "b")) = Option.some 0) ∧
    ((∃ row ∈ [["1", "0", "2"]],
        pyStrip (getCell ["timestamps", "a", "b"] row "b") ≠ "" ∧
        pyFloat (pyStrip (getCell ["timestamps", "a", "b"] row "b")) ≠ Option.some 0) →
      ∃ doc, writtenDoc (convert ["timestamps", "a", "b"] [["1", "0", "2"]]) =
          Option.some doc ∧ "b" ∈ doc.map Prod.fst) :=
  C2_zero_drop_iff ["timestamps", "a", "b"] [["1", "0", "2"]] "b"
    ⟨by decide, by decide⟩ (by decide) (by decide) (by decide) (by decide) (by decide)

/-- C3 counterexample: `"1e3"` parses as the whole number 1000 and contains
no decimal point, yet coercion returns the string `"1e3"`, not an integer:
`int("1e3")` raises `ValueError`, which the handler turns into string
fallback. -/
theorem C3_counterexample :
    pyFloat "1e3" = Option.some 1000 ∧ (1000 : ℚ).den = 1 ∧ '.' ∉ "1e3".toList ∧
      parse_value "1e3" = Value.str "1e3" := by
  have h3 : pyFloat "1e3" = Option.some 1000 := by
    rw [show pyFloat "1e3" = Option.some ((1 : ℚ) * (10 : ℚ) ^ ((3 : ℕ) : ℤ)) from rfl]
    norm_num
  refine ⟨h3, by norm_num, by decide, ?_⟩
  have hs : pyStrip "1e3" = "1e3" := by decide
  rw [parse_value]
  simp only [hs, h3]
  rw [if_neg (by decide : ¬("1e3" : String) = "")]
  rw [if_pos ⟨by norm_num, by decide⟩]
  rw [show pyIntStr "1e3" = Option.none from by decide]

/-- C3 as amended: coercion yields an integer for every whole-number string
with no decimal point that is also a valid integer literal (optional sign
then digits); exponent-notation strings fail `int(val)` and fall back to the
string instead. -/
theorem C3_int_literal_coercion (s : String) (n : ℤ)
    (h : pyIntStr (pyStrip s) = Option.some n) : parse_value s = Value.int n :=
  parse_value_int_literal s n h

/-- C3 witness: the plain digit string `"5"` coerces to the integer 5. -/
theorem C3_witness : parse_value "5" = Value.int 5 :=
  C3_int_literal_coercion "5" 5 (by decide)

/-- C4: every column of the written document carries one value per input
data row, in row order, each the coercion of that column's cell. -/
theorem C4_columnar_shape (headers : List String) (rows : List (List String))
    (_hwf : RowsWF headers rows) (_hr : rows ≠ [])
    (doc : List (String × List Value))
    (hdoc : writtenDoc (convert headers rows) = Option.some doc)
    (c : String) (vs : List Value) (hmem : (c, vs) ∈ doc) :
    vs.length = rows.length ∧
    ∀ (i : ℕ) (row : List String), rows.get? i = Option.some row →
      vs.get? i = Option.some (parse_value (getCell headers row c)) := by
  have hd := writtenDoc_eq_some headers rows doc hdoc
  subst hd
  have hvs := mem_columnsOf headers rows c vs hmem
  subst hvs
  refine ⟨by simp, ?_⟩
  intro i row hrow
  rw [List.get?_map, hrow]
  rfl

/-- C4 witness: a two-row single-column file keeps the column with both
coerced values in order. -/
theorem C4_witness :
    ([Value.int 1, Value.int 2].length = [["1"], ["2"]].length) ∧
    ∀ (i : ℕ) (row : List String), [["1"], ["2"]].get? i = Option.some row →
      [Value.int 1, Value.int 2].get? i =
        Option.some (parse_value (getCell ["timestamps"] row "timestamps")) :=
  C4_columnar_shape ["timestamps"] [["1"], ["2"]] ⟨by decide, by decide⟩ (by decide)
    [("timestamps", [Value.int 1, Value.int 2])] (by decide)
    "timestamps" [Value.int 1, Value.int 2] (by decide)

/-- C5: `date` and `month` never appear among the output keys, and a
`timestamps` column always appears, whatever its cells hold. -/
theorem C5_time_axis_columns (headers : List String) (rows : List (List String))
    (_hwf : RowsWF headers rows) (hr : rows ≠ []) :
    (∀ doc, writtenDoc (convert headers rows) = Option.some doc →
      "date" ∉ doc.map Prod.fst ∧ "month" ∉ doc.map Prod.fst) ∧
    ("timestamps" ∈ headers →
      ∃ doc, writtenDoc (convert headers rows) = Option.some doc ∧
        "timestamps" ∈ doc.map Prod.fst) := by
  constructor
  · intro doc hdoc
    rw [writtenDoc_eq_some headers rows doc hdoc, keys_columnsOf]
    constructor
    · rw [mem_keep_cols]
      rintro ⟨hmem, hnz⟩
      refine hnz ?_
      rw [mem_zero_cols]
      exact ⟨hmem, by rw [isDropped, if_pos (Or.inl rfl)]⟩
    · rw [mem_keep_cols]
      rintro ⟨hmem, hnz⟩
      refine hnz ?_
      rw [mem_zero_cols]
      exact ⟨hmem, by rw [isDropped, if_pos (Or.inr rfl)]⟩
  · intro hts
    refine ⟨columnsOf headers rows, writtenDoc_convert headers rows hr, ?_⟩
    rw [keys_columnsOf, mem_keep_cols]
    refine ⟨hts, fun hz => ?_⟩
    rw [mem_zero_cols] at hz
    have hfalse := hz.2
    rw [isDropped, if_neg (by decide), if_pos rfl] at hfalse
    exact absurd hfalse (by decide)

/-- C5 witness: with columns `timestamps;date;month` and an all-zero
`timestamps`, the output keeps `timestamps` and drops both time axes. -/
theorem C5_witness :
    (∀ doc, writtenDoc (convert ["timestamps", "date", "month"] [["0", "x", "y"]]) =
        Option.some doc →
      "date" ∉ doc.map Prod.fst ∧ "month" ∉ doc.map Prod.fst) ∧
    (("timestamps" : String) ∈ ["timestamps", "date", "month"] →
      ∃ doc, writtenDoc (convert ["timestamps", "date", "month"] [["0", "x", "y"]]) =
          Option.some doc ∧ "timestamps" ∈ doc.map Prod.fst) :=
  C5_time_axis_columns ["timestamps", "date", "month"] [["0", "x", "y"]]
    ⟨by decide, by decide⟩ (by decide)

/-- C6 counterexample: on the cell `"  abc "` numeric parsing fails and
coercion returns the stripped string `"abc"`, not the original raw cell. -/
theorem C6_counterexample :
    pyFloat (pyStrip "  abc ") = Option.none ∧
    parse_value "  abc " = Value.str "abc" ∧
    parse_value "  abc " ≠ Value.str "  abc " := by decide

/-- C6 as amended: when numeric parsing fails on a non-empty cell, coercion
returns the cell stripped of surrounding whitespace, as a string. -/
theorem C6_string_fallback (s : String) (h1 : pyStrip s ≠ "")
    (h2 : pyFloat (pyStrip s) = Option.none) :
    parse_value s = Value.str (pyStrip s) := by
  rw [parse_value]
  simp only [h2, if_neg h1]

/-- C6 witness: the fallback at the concrete cell `"  abc "`. -/
theorem C6_witness : parse_value "  abc " = Value.str (pyStrip "  abc ") :=
  C6_string_fallback "  abc " (by decide) (by decide)

/-- C7: an empty or whitespace-only cell coerces to the absent marker
(`None`), it serializes as `null`, and in any written document it sits at
exactly that cell's row position of the column's array. -/
theorem C7_empty_cell_null (s : String) (h : pyStrip s = "") :
    parse_value s = Value.null ∧ serializeValue (parse_value s) = "null" ∧
    ∀ (headers : List String) (rows : List (List String))
      (doc : List (String × List Value)) (c : String) (vs : List Value)
      (i : ℕ) (row : List String),
      writtenDoc (convert headers rows) = Option.some doc → (c, vs) ∈ doc →
      rows.get? i = Option.some row → getCell headers row c = s →
      vs.get? i = Option.some Value.null := by
  have hp : parse_value s = Value.null := by
    rw [parse_value]
    simp only [h, if_pos]
  refine ⟨hp, by rw [hp]; rfl, ?_⟩
  intro headers rows doc c vs i row hdoc hmem hrow hcell
  have hd := writtenDoc_eq_some headers rows doc hdoc
  subst hd
  have hvs := mem_columnsOf headers rows c vs hmem
  subst hvs
  rw [List.get?_map, hrow]
  rw [Option.map_some']
  rw [hcell, hp]

/-- C7 witness: the whitespace-only cell `"  "`. -/
theorem C7_witness :
    parse_value "  " = Value.null ∧ serializeValue (parse_value "  ") = "null" ∧
    ∀ (headers : List String) (rows : List (List String))
      (doc : List (String × List Value)) (c : String) (vs : List Value)
      (i : ℕ) (row : List String),
      writtenDoc (convert headers rows) = Option.some doc → (c, vs) ∈ doc →
      rows.get? i = Option.some row → getCell headers row c = "  " →
      vs.get? i = Option.some Value.null :=
  C7_empty_cell_null "  " (by decide)

/-- C8: a file that exists but parses to zero data rows (header only or
fully empty) is skipped: `convert` writes nothing, and the main loop records
the skip and continues with the remaining entries unchanged. -/
theorem C8_empty_input_skipped (content : String) (h : (parseCSV content).2 = []) :
    convertFile content = ConvertOutcome.skippedEmpty ∧
    writtenDoc (convertFile content) = Option.none ∧
    ∀ (c j : String) (rest : List (String × String)) (env : String → Option String),
      env c = Option.some content →
      processList ((c, j) :: rest) env =
        (FileReport.skipped c :: (processList rest env).1, (processList rest env).2) := by
  have hc : convertFile content = ConvertOutcome.skippedEmpty := by
    rw [convertFile, h, convert, if_pos rfl]
  refine ⟨hc, by rw [hc]; rfl, ?_⟩
  intro c j rest env henv
  rw [processList]
  simp only [henv, hc]

/-- C8 witness: the header-only file `"a;b"`. -/
theorem C8_witness :
    convertFile "a;b" = ConvertOutcome.skippedEmpty ∧
    writtenDoc (convertFile "a;b") = Option.none ∧
    ∀ (c j : String) (rest : List (String × String)) (env : String → Option String),
      env c = Option.some "a;b" →
      processList ((c, j) :: rest) env =
        (FileReport.skipped c :: (processList rest env).1, (processList rest env).2) :=
  C8_empty_input_skipped "a;b" (by decide)

/-- C9: the bytes written for one (input, output) pair are a deterministic
function of the input file's content: byte-identical inputs yield
byte-identical outputs. -/
theorem C9_deterministic_output (c1 c2 : String) (h : c1 = c2) :
    outputBytes c1 = outputBytes c2 := by rw [h]

/-- C9 witness: determinism at a concrete file content. -/
theorem C9_witness :
    outputBytes "timestamps;a\n1;2" = outputBytes "timestamps;a\n1;2" :=
  C9_deterministic_output "timestamps;a\n1;2" "timestamps;a\n1;2" rfl

/-- C10: a non-special column whose cells all strip to empty joins the drop
set (the all-zero scan is vacuously satisfied) and is absent from any
written document. -/
theorem C10_blank_column_dropped (headers : List String) (rows : List (List String))
    (col : String) (_hwf : RowsWF headers rows) (hcol : col ∈ headers) (_hr : rows ≠ [])
    (h1 : col ≠ "timestamps") (h2 : col ≠ "date") (h3 : col ≠ "month")
    (hall : ∀ row ∈ rows, pyStrip (getCell headers row col) = "") :
    col ∈ zero_cols headers rows ∧
    ∀ doc, writtenDoc (convert headers rows) = Option.some doc →
      col ∉ doc.map Prod.fst := by
  have hz : col ∈ zero_cols headers rows := by
    rw [mem_zero_cols]
    refine ⟨hcol, ?_⟩
    rw [isDropped_other headers rows col h2 h3 h1, colAllZero_iff]
    exact fun row hrow => Or.inl (hall row hrow)
  refine ⟨hz, ?_⟩
  intro doc hdoc
  rw [writtenDoc_eq_some headers rows doc hdoc, keys_columnsOf, mem_keep_cols]
  rintro ⟨_, hk⟩
  exact hk hz

/-- C10 witness: a column `a` holding only `""` and `" "` is dropped from a
two-row file. -/
theorem C10_witness :
    ("a" : String) ∈ zero_cols ["timestamps", "a"] [["1", ""], ["2", " "]] ∧
    ∀ doc, writtenDoc (convert ["timestamps", "a"] [["1", ""], ["2", " "]]) =
        Option.some doc → "a" ∉ doc.map Prod.fst :=
  C10_blank_column_dropped ["timestamps", "a"] [["1", ""], ["2", " "]] "a"
    ⟨by decide, by decide⟩ (by decide) (by decide) (by decide) (by decide) (by decide)
    (by decide)
